import Mathlib

/-!
Verification of the StarRocks pipeline-execution core: a shallow embedding of
FragmentContext, FragmentContextManager (be/src/exec/pipeline/fragment_context.h,
fragment_context.cpp) and the local-exchange interpolation routines of
PipelineBuilderContext (be/src/exec/pipeline/pipeline_builder.cpp), together
with theorems settling the specified properties.
-/

namespace StarRocks

/-- Status codes; only the distinction used by the embedded code matters:
OK, CANCELLED, and other error codes. Mirrors starrocks::Status codes. -/
inductive StatusCode
  | ok
  | cancelled
  | internalError
  | notFound
deriving DecidableEq, Repr

/-- A Status value: a code plus a message, as in starrocks::Status. -/
structure Status where
  code : StatusCode
  message : String
deriving DecidableEq, Repr

/-- Status::OK(). -/
def Status.OK : Status := { code := StatusCode.ok, message := "" }

/-- Status::is_cancelled(). -/
def Status.is_cancelled (s : Status) : Bool := s.code == StatusCode.cancelled

/-- The modulus of size_t arithmetic on the target platform: 2 to the 64,
written as a literal so that reduction stays cheap. -/
def size_t_mod : Nat := 18446744073709551616

/-- The contents of the atomic Status pointer slot of a FragmentContext:
nullptr, the pointer to the s_status member that set_final_status stores, or
an indeterminate non-null pointer left by the constructor (which initializes
only the cancel flag); dereferencing the latter yields an arbitrary value,
carried here as the target payload. -/
inductive StatusPtr
  | null
  | toSStatus
  | junk (target : Status)
deriving DecidableEq, Repr

/-- The mutable state of a FragmentContext that the embedded operations touch:
the atomic driver counter (a size_t), the atomic Status pointer slot, the
s_status member, and the atomic cancel flag. -/
structure FragmentContext where
  num_drivers : Nat
  final_status_ptr : StatusPtr
  s_status : Status
  cancel_flag : Bool
deriving DecidableEq, Repr

/-- FragmentContext(): the constructor initializer list sets only the cancel
flag to false; the num_drivers counter and the final status slot are left
uninitialized, so their post-construction contents are indeterminate and are
taken here as parameters. The default-constructed s_status member is OK. -/
def new_fragment_context (junk_num_drivers : Nat) (junk_ptr : StatusPtr) :
    FragmentContext :=
  { num_drivers := junk_num_drivers, final_status_ptr := junk_ptr,
    s_status := Status.OK, cancel_flag := false }

/-- set_drivers: stores the driver counter to the size of the driver set and
stores nullptr into the final status slot. The drivers themselves are opaque
here; only the size of the set matters to the embedded state. -/
def FragmentContext.set_drivers (ctx : FragmentContext) (num : Nat) : FragmentContext :=
  { ctx with num_drivers := num % size_t_mod, final_status_ptr := StatusPtr.null }

/-- count_down_drivers: the atomic fetch_sub(1) on the size_t counter; returns
whether the value read by the decrement was 1, together with the new state. -/
def FragmentContext.count_down_drivers (ctx : FragmentContext) : Bool × FragmentContext :=
  (ctx.num_drivers == 1,
   { ctx with num_drivers := (ctx.num_drivers + (size_t_mod - 1)) % size_t_mod })

/-- set_final_status: if the loaded slot is non-null, return. Otherwise the
compare-exchange from nullptr succeeds and the slot now points at s_status;
the code then tests final_status().is_cancelled() and logs the reason
final_status() BEFORE executing the assignment of the argument into s_status,
so both the log condition and the logged reason read the previous s_status
value. The second component is the reason the WARNING diagnostic carries,
none when no diagnostic is emitted. -/
def FragmentContext.set_final_status (ctx : FragmentContext) (status : Status) :
    FragmentContext × Option Status :=
  if ctx.final_status_ptr ≠ StatusPtr.null then (ctx, none)
  else
    let logged := if ctx.s_status.is_cancelled then some ctx.s_status else none
    ({ ctx with final_status_ptr := StatusPtr.toSStatus, s_status := status }, logged)

/-- final_status(): OK while the loaded slot is null, otherwise the value the
loaded pointer dereferences to. -/
def FragmentContext.final_status (ctx : FragmentContext) : Status :=
  match ctx.final_status_ptr with
  | StatusPtr.null => Status.OK
  | StatusPtr.toSStatus => ctx.s_status
  | StatusPtr.junk target => target

/-- cancel(status): store true into the cancel flag, then set_final_status. -/
def FragmentContext.cancel (ctx : FragmentContext) (status : Status) : FragmentContext :=
  (FragmentContext.set_final_status { ctx with cancel_flag := true } status).1

/-- finish(): cancel(Status::OK()). -/
def FragmentContext.finish (ctx : FragmentContext) : FragmentContext :=
  ctx.cancel Status.OK

/-- is_canceled(): load of the cancel flag. -/
def FragmentContext.is_canceled (ctx : FragmentContext) : Bool := ctx.cancel_flag

/-- Runs k successive invocations of count_down_drivers and collects the
returned booleans in invocation order. Each invocation is a single atomic
read-modify-write, so any interleaving of the k invocations is one such
sequence. -/
def run_count_downs : FragmentContext → Nat → List Bool
  | _, 0 => []
  | ctx, k + 1 =>
      let r := ctx.count_down_drivers
      r.1 :: run_count_downs r.2 k

/-- The operations of the FragmentContext state machine, for stating that a
property is preserved by every subsequent operation on the context. -/
inductive FragmentOp
  | setDriversOp (n : Nat)
  | countDownOp
  | setFinalStatusOp (s : Status)
  | cancelOp (s : Status)
  | finishOp
deriving DecidableEq, Repr

/-- Applying one state-machine operation to a context. -/
def FragmentContext.apply_op (ctx : FragmentContext) : FragmentOp → FragmentContext
  | FragmentOp.setDriversOp n => ctx.set_drivers n
  | FragmentOp.countDownOp => ctx.count_down_drivers.2
  | FragmentOp.setFinalStatusOp s => (ctx.set_final_status s).1
  | FragmentOp.cancelOp s => ctx.cancel s
  | FragmentOp.finishOp => ctx.finish

/-- The state of a FragmentContextManager: the registry map from fragment
instance id to context (contexts are opaque handles standing for the
FragmentContextPtr identity, ids are opaque keys standing for TUniqueId), plus
the log of completion-signal releases (finish promise set_value calls), in
order, identified by the context handle whose promise was released. -/
structure FragmentContextManager where
  fragment_contexts : List (Nat × Nat)
  released : List Nat
deriving DecidableEq, Repr

/-- Map lookup, as unordered_map::find. -/
def FragmentContextManager.lookup (m : FragmentContextManager) (fragment_id : Nat) :
    Option Nat :=
  List.lookup fragment_id m.fragment_contexts

/-- register_ctx: if the id is already present, return; otherwise emplace. -/
def FragmentContextManager.register_ctx (m : FragmentContextManager)
    (fragment_id ctx : Nat) : FragmentContextManager :=
  if (m.lookup fragment_id).isSome then m
  else { m with fragment_contexts := m.fragment_contexts ++ [(fragment_id, ctx)] }

/-- unregister: if the id is found, set the value of the finish promise of the
stored context and erase the entry; otherwise do nothing. -/
def FragmentContextManager.unregister (m : FragmentContextManager)
    (fragment_id : Nat) : FragmentContextManager :=
  match m.lookup fragment_id with
  | some ctx =>
      { m with
        fragment_contexts := m.fragment_contexts.eraseP (fun kv => kv.1 == fragment_id),
        released := m.released ++ [ctx] }
  | none => m

/-- The map keeps at most one entry per id: its key list has no duplicates. -/
def FragmentContextManager.keys_nodup (m : FragmentContextManager) : Prop :=
  (m.fragment_contexts.map Prod.fst).Nodup

instance (m : FragmentContextManager) : Decidable m.keys_nodup := by
  unfold FragmentContextManager.keys_nodup
  infer_instance

/-- The routing policies of a local exchange, with the constructor arguments
of the corresponding exchanger object: PassthroughExchanger and
BroadcastExchanger carry their memory-manager limit; PartitionExchanger
additionally carries the partition type, the partition expressions (modelled
by their count) and the degree of parallelism of the producing source. -/
inductive LocalExchanger
  | passthroughEx (mem_limit : Nat)
  | broadcastEx (mem_limit : Nat)
  | partitionEx (mem_limit : Nat) (part_type : Nat) (num_partition_exprs : Nat)
      (sender_dop : Nat)
deriving DecidableEq, Repr

/-- Operator factories as the builder sees them: either a factory produced by
the planner (with its id, plan node id, source flag and degree of
parallelism), or one of the two local-exchange factories the builder itself
creates. Exchange factories carry the index of the exchanger object they
reference in the builder allocation order, which models pointer identity. -/
inductive OpFactory
  | plain (op_id : Nat) (plan_node_id : Int) (source_flag : Bool) (dop : Nat)
  | localExchangeSource (op_id : Nat) (plan_node_id : Int) (dop : Nat)
      (mem_limit : Nat) (exchanger_id : Nat)
  | localExchangeSink (op_id : Nat) (plan_node_id : Int) (exchanger_id : Nat)
deriving DecidableEq, Repr

/-- is_source() of an operator factory. -/
def OpFactory.is_source : OpFactory → Bool
  | OpFactory.plain _ _ s _ => s
  | OpFactory.localExchangeSource _ _ _ _ _ => true
  | OpFactory.localExchangeSink _ _ _ => false

/-- degree_of_parallelism() of a source operator factory (only ever read on
sources in the embedded code). -/
def OpFactory.degree_of_parallelism : OpFactory → Nat
  | OpFactory.plain _ _ _ d => d
  | OpFactory.localExchangeSource _ _ d _ _ => d
  | OpFactory.localExchangeSink _ _ _ => 0

/-- An operator-factory sequence (OpFactories). -/
abbrev OpFactories := List OpFactory

/-- down_cast of the first factory to SourceOperatorFactory followed by
degree_of_parallelism(); only meaningful on non-empty source-headed input. -/
def source_dop : OpFactories → Nat
  | [] => 0
  | op :: _ => op.degree_of_parallelism

/-- The DCHECK precondition of the interpolation routines: the sequence is
non-empty and its first factory is a source. -/
def starts_with_source : OpFactories → Bool
  | [] => false
  | op :: _ => op.is_source

/-- The builder-context state the interpolation routines use: the degree of
parallelism of the fragment, the fresh operator-id counter, the pseudo plan
node id counter, the sealed pipelines, and the exchanger objects created so
far (identity is the allocation index). -/
structure PipelineBuilderContext where
  dop : Nat
  next_op_id : Nat
  next_pseudo_id : Int
  pipelines : List OpFactories
  exchangers : List LocalExchanger
deriving DecidableEq, Repr

/-- Modelled from the spec: the builder context allocates a fresh operator id
for every factory it creates (the counter lives in the PipelineBuilderContext
header, which is not in src). -/
def PipelineBuilderContext.next_operator_id (ctx : PipelineBuilderContext) :
    Nat × PipelineBuilderContext :=
  (ctx.next_op_id, { ctx with next_op_id := ctx.next_op_id + 1 })

/-- Modelled from the spec: the builder context allocates a fresh pseudo plan
node id for every interpolated exchange (the counter lives in the
PipelineBuilderContext header, which is not in src). -/
def PipelineBuilderContext.next_pseudo_plan_node_id (ctx : PipelineBuilderContext) :
    Int × PipelineBuilderContext :=
  (ctx.next_pseudo_id, { ctx with next_pseudo_id := ctx.next_pseudo_id - 1 })

/-- Modelled from the spec: add_pipeline seals the given operator-factory
sequence into an immutable Pipeline and appends it to the builder result list
(declared in the PipelineBuilderContext header, which is not in src). -/
def PipelineBuilderContext.add_pipeline (ctx : PipelineBuilderContext)
    (ops : OpFactories) : PipelineBuilderContext :=
  { ctx with pipelines := ctx.pipelines ++ [ops] }

/-- Allocation of a new exchanger object; the returned index models the
identity of the shared_ptr all referencing factories hold. -/
def PipelineBuilderContext.new_exchanger (ctx : PipelineBuilderContext)
    (ex : LocalExchanger) : Nat × PipelineBuilderContext :=
  (ctx.exchangers.length, { ctx with exchangers := ctx.exchangers ++ [ex] })

/-- maybe_interpolate_local_passthrough_exchange(state, pred_operators,
num_receivers): if the dop of the predecessor source already equals
num_receivers, return the input unchanged. Otherwise create a memory manager
with limit chunk_size * max(num_receivers, predecessor dop), a local exchange
source, a PassthroughExchanger and a sink referencing it, append the sink to
the predecessor sequence, seal that sequence as a pipeline, and return the
single-element sequence holding the source with dop num_receivers. -/
def maybe_interpolate_local_passthrough_exchange (chunk_size : Nat)
    (ctx : PipelineBuilderContext) (pred_operators : OpFactories)
    (num_receivers : Nat) : OpFactories × PipelineBuilderContext :=
  if source_dop pred_operators == num_receivers then (pred_operators, ctx)
  else
    let p1 := ctx.next_pseudo_plan_node_id
    let buffer_size := max num_receivers (source_dop pred_operators)
    let mem_limit := chunk_size * buffer_size
    let s1 := p1.2.next_operator_id
    let ex1 := s1.2.new_exchanger (LocalExchanger.passthroughEx mem_limit)
    let k1 := ex1.2.next_operator_id
    let sink := OpFactory.localExchangeSink k1.1 p1.1 ex1.1
    let ctx2 := k1.2.add_pipeline (pred_operators ++ [sink])
    ([OpFactory.localExchangeSource s1.1 p1.1 num_receivers mem_limit ex1.1], ctx2)

/-- maybe_interpolate_local_broadcast_exchange(state, pred_operators,
num_receivers): with one receiver, exactly the passthrough routine with one
receiver. Otherwise create a memory manager with limit
chunk_size * num_receivers * num_receivers, a local exchange source, a
BroadcastExchanger and a sink referencing it, append the sink, seal the
predecessor sequence, and return the source with dop num_receivers. -/
def maybe_interpolate_local_broadcast_exchange (chunk_size : Nat)
    (ctx : PipelineBuilderContext) (pred_operators : OpFactories)
    (num_receivers : Nat) : OpFactories × PipelineBuilderContext :=
  if num_receivers == 1 then
    maybe_interpolate_local_passthrough_exchange chunk_size ctx pred_operators 1
  else
    let p1 := ctx.next_pseudo_plan_node_id
    let mem_limit := chunk_size * num_receivers * num_receivers
    let s1 := p1.2.next_operator_id
    let ex1 := s1.2.new_exchanger (LocalExchanger.broadcastEx mem_limit)
    let k1 := ex1.2.next_operator_id
    let sink := OpFactory.localExchangeSink k1.1 p1.1 ex1.1
    let ctx2 := k1.2.add_pipeline (pred_operators ++ [sink])
    ([OpFactory.localExchangeSource s1.1 p1.1 num_receivers mem_limit ex1.1], ctx2)

/-- maybe_interpolate_local_shuffle_exchange(state, pred_operators,
partition_expr_ctxs, part_type): with the fragment dop at most 1, return the
input unchanged. Otherwise create a memory manager with limit
dop * chunk_size, a local exchange source, a PartitionExchanger (carrying the
partition type, the partition expressions and the predecessor source dop) and
a sink referencing it, append the sink, seal the predecessor sequence, and
return the source with the fragment dop. -/
def maybe_interpolate_local_shuffle_exchange (chunk_size : Nat)
    (ctx : PipelineBuilderContext) (pred_operators : OpFactories)
    (num_partition_exprs : Nat) (part_type : Nat) :
    OpFactories × PipelineBuilderContext :=
  let shuffle_partitions_num := ctx.dop
  if shuffle_partitions_num ≤ 1 then (pred_operators, ctx)
  else
    let p1 := ctx.next_pseudo_plan_node_id
    let mem_limit := shuffle_partitions_num * chunk_size
    let s1 := p1.2.next_operator_id
    let ex1 := s1.2.new_exchanger
      (LocalExchanger.partitionEx mem_limit part_type num_partition_exprs
        (source_dop pred_operators))
    let k1 := ex1.2.next_operator_id
    let sink := OpFactory.localExchangeSink k1.1 p1.1 ex1.1
    let ctx2 := k1.2.add_pipeline (pred_operators ++ [sink])
    ([OpFactory.localExchangeSource s1.1 p1.1 shuffle_partitions_num mem_limit ex1.1],
     ctx2)

/-- The sink-appending loop of maybe_gather_pipelines_to_one: for each
predecessor sequence, allocate a fresh operator id, append a sink referencing
the shared exchanger, and seal the sequence as a pipeline. -/
def append_sinks_and_seal (pseudo_id : Int) (exchanger_id : Nat) :
    PipelineBuilderContext → List OpFactories → PipelineBuilderContext
  | ctx, [] => ctx
  | ctx, pred :: rest =>
      let k := ctx.next_operator_id
      let ctx2 := k.2.add_pipeline
        (pred ++ [OpFactory.localExchangeSink k.1 pseudo_id exchanger_id])
      append_sinks_and_seal pseudo_id exchanger_id ctx2 rest

/-- maybe_gather_pipelines_to_one(state, pred_operators_list): with exactly
one predecessor list, return it unchanged. Otherwise accumulate
max_row_count as the sum over predecessors of source dop times chunk_size,
create one shared PassthroughExchanger with that limit, append one sink per
predecessor (each referencing the shared exchanger) and seal each predecessor
as its own pipeline, and return the single source with the fragment dop. -/
def maybe_gather_pipelines_to_one (chunk_size : Nat)
    (ctx : PipelineBuilderContext) (pred_operators_list : List OpFactories) :
    OpFactories × PipelineBuilderContext :=
  match pred_operators_list with
  | [pred] => (pred, ctx)
  | preds =>
      let max_row_count :=
        preds.foldl (fun acc pred => acc + source_dop pred * chunk_size) 0
      let p1 := ctx.next_pseudo_plan_node_id
      let s1 := p1.2.next_operator_id
      let ex1 := s1.2.new_exchanger (LocalExchanger.passthroughEx max_row_count)
      let ctx2 := append_sinks_and_seal p1.1 ex1.1 ex1.2 preds
      ([OpFactory.localExchangeSource s1.1 p1.1 ctx.dop max_row_count ex1.1], ctx2)

/-- The pipelines the gather loop seals: each predecessor extended with a sink
holding consecutive operator ids from next_id on, all referencing the same
shared exchanger. -/
def sealed_with_sinks (pseudo_id : Int) (exchanger_id : Nat) :
    Nat → List OpFactories → List OpFactories
  | _, [] => []
  | next_id, pred :: rest =>
      (pred ++ [OpFactory.localExchangeSink next_id pseudo_id exchanger_id]) ::
        sealed_with_sinks pseudo_id exchanger_id (next_id + 1) rest

/-- A concrete builder context (fragment dop 2, fresh counters, nothing
sealed) for evaluating the interpolation routines. -/
def demo_ctx : PipelineBuilderContext :=
  { dop := 2, next_op_id := 0, next_pseudo_id := -1, pipelines := [], exchangers := [] }

/-- A concrete predecessor sequence: one planner source factory with dop 2. -/
def demo_pred : OpFactories := [OpFactory.plain 7 3 true 2]

/-- A concrete predecessor sequence: one planner source factory with dop 4. -/
def demo_pred4 : OpFactories := [OpFactory.plain 7 3 true 4]

/-- A concrete predecessor sequence: one planner source factory with dop 1. -/
def demo_pred1 : OpFactories := [OpFactory.plain 7 3 true 1]

/-- A concrete predecessor list for the gather routine: two source-headed
sequences with dop 2 and dop 3. -/
def demo_preds : List OpFactories :=
  [[OpFactory.plain 1 1 true 2], [OpFactory.plain 2 2 true 3]]

/-- The size_t decrement of a counter in the live range never wraps: for
1 ≤ c < 2^64, fetch_sub leaves c - 1. -/
theorem fetch_sub_step (c : Nat) (h1 : 1 ≤ c) (h2 : c < size_t_mod) :
    (c + (size_t_mod - 1)) % size_t_mod = c - 1 := by
  have hm : size_t_mod = 18446744073709551616 := rfl
  rw [hm] at h2 ⊢
  omega

/-- Characterization of a run of count_down_drivers invocations: the i-th
invocation returns whether the counter value it observes, namely the initial
value minus i, equals 1. -/
theorem run_count_downs_eq (k : Nat) : ∀ ctx : FragmentContext,
    k ≤ ctx.num_drivers → ctx.num_drivers < size_t_mod →
    run_count_downs ctx k =
      (List.range k).map (fun i => (ctx.num_drivers - i == 1)) := by
  induction k with
  | zero => intro ctx _ _; simp [run_count_downs]
  | succ k ih =>
      intro ctx hk hlt
      have h1 : 1 ≤ ctx.num_drivers := le_trans (Nat.succ_le_succ (Nat.zero_le k)) hk
      have hstep := fetch_sub_step ctx.num_drivers h1 hlt
      have hrec := ih { ctx with
          num_drivers := (ctx.num_drivers + (size_t_mod - 1)) % size_t_mod }
        (by simp only [hstep]; omega) (by simp only [hstep]; omega)
      simp only [run_count_downs, FragmentContext.count_down_drivers]
      rw [hrec]
      simp only [hstep]
      rw [List.range_succ_eq_map, List.map_cons, List.map_map]
      refine congrArg₂ _ rfl ?_
      refine List.map_congr_left (fun i _ => ?_)
      have : ctx.num_drivers - 1 - i = ctx.num_drivers - (i + 1) := by omega
      simp [Function.comp, this]

/-- Counting the true results of the decrement runs: with initial value c and
k invocations, k ≤ c, exactly one invocation observes 1 when c ≤ k, none
otherwise. -/
theorem count_true_range (k : Nat) : ∀ c : Nat, 1 ≤ c → k ≤ c →
    ((List.range k).map (fun i => (c - i == 1))).count true =
      if c ≤ k then 1 else 0 := by
  induction k with
  | zero =>
      intro c h1 _
      simp only [List.range_zero, List.map_nil, List.count_nil]
      rw [if_neg (by omega)]
  | succ k ih =>
      intro c h1 hk
      rw [List.range_succ, List.map_append, List.count_append]
      rw [ih c h1 (by omega), if_neg (by omega : ¬ c ≤ k)]
      by_cases hc : c = k + 1
      · have hb : (c - k == 1) = true := by simp [hc]
        rw [if_pos (by omega)]
        simp [hb]
      · have hb : (c - k == 1) = false := by
          simp only [beq_eq_false_iff_ne, ne_eq]
          omega
        rw [if_neg (by omega)]
        simp [hb]

/-- C1: with the driver counter initialized to N (1 ≤ N, within size_t) by
set_drivers, running N invocations of count_down_drivers — each a single
atomic read-modify-write, so every interleaving is such a run — the i-th
invocation returns true exactly when the value it observes, N - i, is 1, and
exactly one of the N invocations returns true. -/
theorem count_down_drivers_exactly_one (ctx : FragmentContext) (N : Nat)
    (h1 : 1 ≤ N) (h2 : N < size_t_mod) :
    run_count_downs (ctx.set_drivers N) N =
      (List.range N).map (fun i => (N - i == 1)) ∧
    (run_count_downs (ctx.set_drivers N) N).count true = 1 := by
  have hstore : (ctx.set_drivers N).num_drivers = N := by
    simp [FragmentContext.set_drivers, Nat.mod_eq_of_lt h2]
  have heq := run_count_downs_eq N (ctx.set_drivers N)
    (by rw [hstore]) (by rw [hstore]; exact h2)
  rw [hstore] at heq
  refine ⟨heq, ?_⟩
  rw [heq, count_true_range N N h1 le_rfl, if_pos le_rfl]

/-- Witness for C1 at N = 3 on a freshly constructed context with concrete
indeterminate contents; set_drivers overwrites both uninitialized fields, so
the conclusion is independent of them. -/
theorem count_down_drivers_exactly_one_witness :
    1 ≤ 3 ∧ 3 < size_t_mod ∧
    (run_count_downs
        ((new_fragment_context 99
          (StatusPtr.junk (Status.mk StatusCode.cancelled "junk"))).set_drivers 3) 3 =
        (List.range 3).map (fun i => (3 - i == 1)) ∧
      (run_count_downs
        ((new_fragment_context 99
          (StatusPtr.junk (Status.mk StatusCode.cancelled "junk"))).set_drivers 3)
        3).count true = 1) :=
  ⟨by decide, by decide,
    count_down_drivers_exactly_one
      (new_fragment_context 99 (StatusPtr.junk (Status.mk StatusCode.cancelled "junk")))
      3 (by decide) (by decide)⟩

/-- After any set_final_status call the slot is non-null. -/
theorem set_final_status_latched (ctx : FragmentContext) (st : Status) :
    ((ctx.set_final_status st).1).final_status_ptr ≠ StatusPtr.null := by
  unfold FragmentContext.set_final_status
  split
  · next h => exact h
  · intro hc
    exact StatusPtr.noConfusion hc

/-- set_final_status on a context whose slot is non-null leaves the state
unchanged. -/
theorem set_final_status_noop (ctx : FragmentContext) (st : Status)
    (h : ctx.final_status_ptr ≠ StatusPtr.null) :
    (ctx.set_final_status st).1 = ctx := by
  unfold FragmentContext.set_final_status
  rw [if_pos h]

/-- Folding further set_final_status calls over a context whose slot is
non-null is the identity. -/
theorem foldl_set_final_status_noop (sts : List Status) :
    ∀ ctx : FragmentContext, ctx.final_status_ptr ≠ StatusPtr.null →
    sts.foldl (fun c s => (c.set_final_status s).1) ctx = ctx := by
  induction sts with
  | nil => intro ctx _; rfl
  | cons s rest ih =>
      intro ctx h
      simp only [List.foldl_cons]
      rw [set_final_status_noop ctx s h]
      exact ih ctx h

/-- C2 counterexample: the constructor initializes only the cancel flag, so
the final status slot holds indeterminate contents after construction; in a
post-construction state whose garbage pointer is non-null, final_status()
does not return OK (it dereferences the garbage pointer), and set_final_status
does not even latch there (the non-null check short-circuits) — refuting the
conjunct of the claim that final_status() returns OK immediately after
construction. -/
theorem final_status_after_construction_not_ok :
    (new_fragment_context 5
        (StatusPtr.junk (Status.mk StatusCode.internalError "indeterminate"))).final_status ≠
      Status.OK ∧
    ((new_fragment_context 5
        (StatusPtr.junk (Status.mk StatusCode.internalError "indeterminate"))).set_final_status
          (Status.mk StatusCode.cancelled "want")).1 =
      new_fragment_context 5
        (StatusPtr.junk (Status.mk StatusCode.internalError "indeterminate")) := by
  decide

/-- C2 (amended): the final-status latch is one-shot. After set_drivers
stores nullptr into the slot, final_status() returns OK; on any context whose
slot is null the first set_final_status latches its argument and every later
call (any statuses, in any order) leaves it, so final_status() thereafter
returns the first latched status. Nothing is claimed about the state between
construction (which leaves the slot uninitialized) and set_drivers. -/
theorem final_status_one_shot_latch (ctx : FragmentContext) (st1 : Status)
    (sts : List Status) (n : Nat)
    (h : ctx.final_status_ptr = StatusPtr.null) :
    (ctx.set_drivers n).final_status = Status.OK ∧
    ((ctx.set_final_status st1).1).final_status = st1 ∧
    (sts.foldl (fun c s => (c.set_final_status s).1)
        (ctx.set_final_status st1).1).final_status = st1 := by
  have hl : (ctx.set_final_status st1).1 =
      { ctx with final_status_ptr := StatusPtr.toSStatus, s_status := st1 } := by
    unfold FragmentContext.set_final_status
    rw [if_neg (by simp [h])]
  refine ⟨?_, ?_, ?_⟩
  · simp [FragmentContext.set_drivers, FragmentContext.final_status]
  · rw [hl]; rfl
  · rw [foldl_set_final_status_noop sts _ (set_final_status_latched ctx st1)]
    rw [hl]; rfl

/-- Witness for C2 on a freshly constructed context (concrete indeterminate
contents) after set_drivers: latch an internal error first, then a cancel and
an OK; the internal error is retained. -/
theorem final_status_one_shot_latch_witness :
    ((new_fragment_context 7
        (StatusPtr.junk Status.OK)).set_drivers 2).final_status_ptr =
      StatusPtr.null ∧
    ((((new_fragment_context 7 (StatusPtr.junk Status.OK)).set_drivers
          2).set_drivers 2).final_status = Status.OK ∧
      ((((new_fragment_context 7 (StatusPtr.junk Status.OK)).set_drivers
            2).set_final_status
          (Status.mk StatusCode.internalError "boom")).1).final_status =
        Status.mk StatusCode.internalError "boom" ∧
      (([Status.mk StatusCode.cancelled "late", Status.OK]).foldl
          (fun c s => (c.set_final_status s).1)
          (((new_fragment_context 7 (StatusPtr.junk Status.OK)).set_drivers
              2).set_final_status
            (Status.mk StatusCode.internalError "boom")).1).final_status =
        Status.mk StatusCode.internalError "boom") :=
  ⟨by decide,
    final_status_one_shot_latch
      ((new_fragment_context 7 (StatusPtr.junk Status.OK)).set_drivers 2)
      (Status.mk StatusCode.internalError "boom")
      [Status.mk StatusCode.cancelled "late", Status.OK] 2 (by decide)⟩

/-- C5: evaluation of the code at the failing input. On an unlatched context
(slot stored to nullptr by set_drivers, s_status still the default OK) a
set_final_status call that wins the latch with a cancellation status emits no
diagnostic at all: the log condition (and the reason it would report) reads
the s_status slot before the assignment of this call took effect, observing
the prior OK value rather than the cancellation being stored. -/
theorem set_final_status_cancel_log_stale :
    (((new_fragment_context 7
          (StatusPtr.junk (Status.mk StatusCode.internalError "garbage"))).set_drivers
        4).set_final_status
        (Status.mk StatusCode.cancelled "cancelled by user")).2 = none ∧
    ((((new_fragment_context 7
          (StatusPtr.junk (Status.mk StatusCode.internalError "garbage"))).set_drivers
        4).set_final_status
        (Status.mk StatusCode.cancelled "cancelled by user")).1).final_status =
      Status.mk StatusCode.cancelled "cancelled by user" ∧
    (Status.mk StatusCode.cancelled "cancelled by user").is_cancelled = true := by
  decide

/-- set_final_status never touches the cancel flag. -/
theorem set_final_status_cancel_flag (ctx : FragmentContext) (s : Status) :
    ((ctx.set_final_status s).1).cancel_flag = ctx.cancel_flag := by
  unfold FragmentContext.set_final_status
  split <;> rfl

/-- cancel leaves the cancel flag set. -/
theorem cancel_sets_flag (ctx : FragmentContext) (s : Status) :
    (ctx.cancel s).cancel_flag = true := by
  unfold FragmentContext.cancel
  rw [set_final_status_cancel_flag]

/-- Every operation of the state machine preserves a set cancel flag. -/
theorem apply_op_preserves_cancel_flag (op : FragmentOp) (ctx : FragmentContext)
    (h : ctx.cancel_flag = true) : (ctx.apply_op op).cancel_flag = true := by
  cases op with
  | setDriversOp n => cases ctx; exact h
  | countDownOp => cases ctx; exact h
  | setFinalStatusOp s =>
      rw [FragmentContext.apply_op, set_final_status_cancel_flag]
      exact h
  | cancelOp s => exact cancel_sets_flag ctx s
  | finishOp => exact cancel_sets_flag ctx Status.OK

/-- A set cancel flag survives any sequence of state-machine operations. -/
theorem foldl_ops_preserve_cancel_flag (ops : List FragmentOp) :
    ∀ ctx : FragmentContext, ctx.cancel_flag = true →
    (ops.foldl FragmentContext.apply_op ctx).cancel_flag = true := by
  induction ops with
  | nil => intro ctx h; exact h
  | cons op rest ih =>
      intro ctx h
      exact ih _ (apply_op_preserves_cancel_flag op ctx h)

/-- cancel on a context whose slot is non-null does not disturb the final
status. -/
theorem cancel_final_status_eq (ctx : FragmentContext) (s : Status)
    (h : ctx.final_status_ptr ≠ StatusPtr.null) :
    (ctx.cancel s).final_status = ctx.final_status := by
  unfold FragmentContext.cancel FragmentContext.set_final_status
  rw [if_pos h]
  rfl

/-- C9: the cancel flag is monotone once set. cancel sets the flag (as does
finish, which is cancel with OK); the flag then stays set across every
subsequent state-machine operation; a second cancel has the same effect on
the flag as the first; and a cancel issued after some set_final_status call
latched a status sets the flag while leaving the latched status unchanged. -/
theorem cancel_flag_monotone (ctx : FragmentContext) (st st2 st0 : Status)
    (ops : List FragmentOp) :
    (ctx.cancel st).is_canceled = true ∧
    ctx.finish.is_canceled = true ∧
    (ops.foldl FragmentContext.apply_op (ctx.cancel st)).is_canceled = true ∧
    ((ctx.cancel st).cancel st2).cancel_flag = (ctx.cancel st).cancel_flag ∧
    (((ctx.set_final_status st0).1).cancel st).final_status =
      ((ctx.set_final_status st0).1).final_status ∧
    (((ctx.set_final_status st0).1).cancel st).is_canceled = true := by
  refine ⟨cancel_sets_flag ctx st, cancel_sets_flag ctx Status.OK, ?_, ?_, ?_, ?_⟩
  · exact foldl_ops_preserve_cancel_flag ops _ (cancel_sets_flag ctx st)
  · rw [cancel_sets_flag, cancel_sets_flag]
  · exact cancel_final_status_eq _ st (set_final_status_latched ctx st0)
  · exact cancel_sets_flag _ st

/-- A key absent from the lookup is distinct from every stored key. -/
theorem lookup_none_keys (k : Nat) : ∀ l : List (Nat × Nat),
    List.lookup k l = none → ∀ kv ∈ l, kv.1 ≠ k := by
  intro l
  induction l with
  | nil => intro _ kv hkv; cases hkv
  | cons a t ih =>
      intro hnone kv hkv
      rw [List.lookup_cons] at hnone
      rw [List.mem_cons] at hkv
      split at hnone
      · exact Option.noConfusion hnone
      · rename_i hak
        rcases hkv with hkv | hkv
        · subst hkv
          simp only [beq_eq_false_iff_ne, ne_eq] at hak
          omega
        · exact ih hnone kv hkv

/-- Appending a fresh binding makes it visible to lookup. -/
theorem lookup_append_fresh (k v : Nat) : ∀ l : List (Nat × Nat),
    List.lookup k l = none → List.lookup k (l ++ [(k, v)]) = some v := by
  intro l
  induction l with
  | nil => simp [List.lookup_cons]
  | cons a t ih =>
      intro hnone
      rw [List.lookup_cons] at hnone
      rw [List.cons_append, List.lookup_cons]
      split at hnone
      · exact Option.noConfusion hnone
      · exact ih hnone

/-- register_ctx on an occupied id returns without touching the manager. -/
theorem register_ctx_present (m : FragmentContextManager) (fid c v : Nat)
    (h : m.lookup fid = some v) : m.register_ctx fid c = m := by
  unfold FragmentContextManager.register_ctx
  rw [h]
  rfl

/-- unregister on an absent id returns without touching the manager. -/
theorem unregister_absent (m : FragmentContextManager) (fid : Nat)
    (h : m.lookup fid = none) : m.unregister fid = m := by
  unfold FragmentContextManager.unregister
  rw [h]

/-- C10: manager registration races are idempotent no-ops. Registering on an
occupied id leaves the whole manager unchanged (the first registration wins);
unregister on a registered id removes the entry, restores the registry, and
releases the completion signal of exactly that context exactly once; a
repeated unregister, and unregister on an absent id, change nothing; and both
operations preserve the at-most-one-context-per-id invariant. -/
theorem manager_register_unregister_idempotent (m : FragmentContextManager)
    (fid c c2 aid : Nat) (hfree : m.lookup fid = none)
    (habs : m.lookup aid = none) (hnd : m.keys_nodup) :
    ((m.register_ctx fid c).register_ctx fid c2) = m.register_ctx fid c ∧
    (m.register_ctx fid c).lookup fid = some c ∧
    ((m.register_ctx fid c).unregister fid) =
      { m with released := m.released ++ [c] } ∧
    (((m.register_ctx fid c).unregister fid).unregister fid) =
      ((m.register_ctx fid c).unregister fid) ∧
    m.unregister aid = m ∧
    (m.register_ctx fid c).keys_nodup ∧
    ((m.register_ctx fid c).unregister fid).keys_nodup := by
  have hreg : m.register_ctx fid c =
      { m with fragment_contexts := m.fragment_contexts ++ [(fid, c)] } := by
    unfold FragmentContextManager.register_ctx
    rw [if_neg (by simp [hfree])]
  have hlook : (m.register_ctx fid c).lookup fid = some c := by
    rw [hreg]
    exact lookup_append_fresh fid c m.fragment_contexts hfree
  have hkeys := lookup_none_keys fid m.fragment_contexts hfree
  have herase :
      (m.fragment_contexts ++ [(fid, c)]).eraseP (fun kv => kv.1 == fid) =
        m.fragment_contexts := by
    rw [List.eraseP_append_right _ (by
      intro b hb
      simp only [beq_iff_eq]
      exact hkeys b hb)]
    simp [List.eraseP_cons]
  have hunreg : (m.register_ctx fid c).unregister fid =
      { m with released := m.released ++ [c] } := by
    unfold FragmentContextManager.unregister
    rw [hlook]
    rw [hreg]
    simp only
    rw [herase]
  refine ⟨?_, hlook, hunreg, ?_, ?_, ?_, ?_⟩
  · exact register_ctx_present _ fid c2 c hlook
  · rw [hunreg]
    exact unregister_absent _ fid hfree
  · exact unregister_absent m aid habs
  · rw [hreg]
    unfold FragmentContextManager.keys_nodup
    simp only [List.map_append, List.map_cons, List.map_nil]
    rw [List.nodup_append]
    refine ⟨hnd, List.nodup_singleton fid, ?_⟩
    intro x hx hx1
    rw [List.mem_singleton] at hx1
    subst hx1
    rcases List.mem_map.mp hx with ⟨kv, hkv, hkv1⟩
    exact hkeys kv hkv hkv1
  · rw [hunreg]
    exact hnd

/-- Witness for C10 on the empty manager. -/
theorem manager_register_unregister_idempotent_witness :
    (FragmentContextManager.mk [] []).lookup 1 = none ∧
    (FragmentContextManager.mk [] []).lookup 2 = none ∧
    (FragmentContextManager.mk [] []).keys_nodup ∧
    ((((FragmentContextManager.mk [] []).register_ctx 1 10).register_ctx 1 11) =
        (FragmentContextManager.mk [] []).register_ctx 1 10 ∧
      ((FragmentContextManager.mk [] []).register_ctx 1 10).lookup 1 = some 10 ∧
      (((FragmentContextManager.mk [] []).register_ctx 1 10).unregister 1) =
        { FragmentContextManager.mk [] [] with released := [] ++ [10] } ∧
      ((((FragmentContextManager.mk [] []).register_ctx 1 10).unregister 1).unregister 1) =
        (((FragmentContextManager.mk [] []).register_ctx 1 10).unregister 1) ∧
      (FragmentContextManager.mk [] []).unregister 2 = FragmentContextManager.mk [] [] ∧
      ((FragmentContextManager.mk [] []).register_ctx 1 10).keys_nodup ∧
      (((FragmentContextManager.mk [] []).register_ctx 1 10).unregister 1).keys_nodup) :=
  ⟨by decide, by decide, by decide,
    manager_register_unregister_idempotent (FragmentContextManager.mk [] [])
      1 10 11 2 (by decide) (by decide) (by decide)⟩

/-- C3 counterexample: on a predecessor sequence headed by a source of dop 2
with requested receiver count 2 (equal), broadcast interpolation does not
return the input unchanged with nothing created: it creates a broadcast
exchanger and seals a pipeline. -/
theorem broadcast_equal_dop_not_identity :
    starts_with_source demo_pred = true ∧
    source_dop demo_pred = 2 ∧
    ¬((maybe_interpolate_local_broadcast_exchange 4096 demo_ctx demo_pred 2).1 =
        demo_pred ∧
      (maybe_interpolate_local_broadcast_exchange 4096 demo_ctx demo_pred 2).2.exchangers =
        demo_ctx.exchangers ∧
      (maybe_interpolate_local_broadcast_exchange 4096 demo_ctx demo_pred 2).2.pipelines =
        demo_ctx.pipelines) := by
  decide

/-- C3 (amended): on a source-headed predecessor whose source dop equals the
requested receiver count, passthrough interpolation returns the input
sequence identically, creating no exchange and sealing no pipeline; broadcast
interpolation does so exactly in its degenerate case num_receivers = 1, where
it is the passthrough routine; with two or more receivers broadcast always
creates an exchange even on equal dop. -/
theorem interpolate_equal_dop_identity (chunk_size : Nat)
    (ctx : PipelineBuilderContext) (pred : OpFactories) (num_receivers : Nat)
    (hs : starts_with_source pred = true) (h : source_dop pred = num_receivers) :
    maybe_interpolate_local_passthrough_exchange chunk_size ctx pred num_receivers =
      (pred, ctx) ∧
    (num_receivers = 1 →
      maybe_interpolate_local_broadcast_exchange chunk_size ctx pred num_receivers =
        (pred, ctx)) := by
  constructor
  · unfold maybe_interpolate_local_passthrough_exchange
    rw [if_pos (by simp [h])]
  · intro h1
    subst h1
    unfold maybe_interpolate_local_broadcast_exchange
    rw [if_pos (by simp)]
    unfold maybe_interpolate_local_passthrough_exchange
    rw [if_pos (by simp [h])]

/-- Witness for C3 on a dop-1 predecessor with one receiver. -/
theorem interpolate_equal_dop_identity_witness :
    starts_with_source demo_pred1 = true ∧
    source_dop demo_pred1 = 1 ∧
    maybe_interpolate_local_passthrough_exchange 4096 demo_ctx demo_pred1 1 =
      (demo_pred1, demo_ctx) ∧
    maybe_interpolate_local_broadcast_exchange 4096 demo_ctx demo_pred1 1 =
      (demo_pred1, demo_ctx) :=
  ⟨by decide, by decide,
    (interpolate_equal_dop_identity 4096 demo_ctx demo_pred1 1 (by decide) (by decide)).1,
    (interpolate_equal_dop_identity 4096 demo_ctx demo_pred1 1 (by decide) (by decide)).2 rfl⟩

/-- C4: on a source-headed predecessor whose source dop differs from
num_receivers, passthrough interpolation creates exactly one exchanger — a
passthrough one with memory limit chunk_size * max(num_receivers,
predecessor dop) — appends the exchange sink to the predecessor sequence and
seals exactly that sequence as one pipeline, and returns a single-operator
sequence holding the exchange source with dop num_receivers. -/
theorem passthrough_unequal_dop_inserts_exchange (chunk_size : Nat)
    (ctx : PipelineBuilderContext) (pred : OpFactories) (num_receivers : Nat)
    (hs : starts_with_source pred = true)
    (hne : source_dop pred ≠ num_receivers) :
    (maybe_interpolate_local_passthrough_exchange chunk_size ctx pred
        num_receivers).2.exchangers =
      ctx.exchangers ++
        [LocalExchanger.passthroughEx
          (chunk_size * max num_receivers (source_dop pred))] ∧
    (maybe_interpolate_local_passthrough_exchange chunk_size ctx pred
        num_receivers).2.pipelines =
      ctx.pipelines ++
        [pred ++ [OpFactory.localExchangeSink (ctx.next_op_id + 1)
          ctx.next_pseudo_id ctx.exchangers.length]] ∧
    (maybe_interpolate_local_passthrough_exchange chunk_size ctx pred
        num_receivers).1 =
      [OpFactory.localExchangeSource ctx.next_op_id ctx.next_pseudo_id
        num_receivers (chunk_size * max num_receivers (source_dop pred))
        ctx.exchangers.length] := by
  unfold maybe_interpolate_local_passthrough_exchange
  rw [if_neg (by simp [hne])]
  exact ⟨rfl, rfl, rfl⟩

/-- Witness for C4: a predecessor of dop 4 feeding a consumer of dop 1 gets
one passthrough exchange with budget chunk_size * max(1, 4) and a returned
source of dop 1. -/
theorem passthrough_unequal_dop_inserts_exchange_witness :
    starts_with_source demo_pred4 = true ∧
    source_dop demo_pred4 ≠ 1 ∧
    ((maybe_interpolate_local_passthrough_exchange 4096 demo_ctx demo_pred4
        1).2.exchangers =
      demo_ctx.exchangers ++
        [LocalExchanger.passthroughEx (4096 * max 1 (source_dop demo_pred4))] ∧
    (maybe_interpolate_local_passthrough_exchange 4096 demo_ctx demo_pred4
        1).2.pipelines =
      demo_ctx.pipelines ++
        [demo_pred4 ++ [OpFactory.localExchangeSink (demo_ctx.next_op_id + 1)
          demo_ctx.next_pseudo_id demo_ctx.exchangers.length]] ∧
    (maybe_interpolate_local_passthrough_exchange 4096 demo_ctx demo_pred4
        1).1 =
      [OpFactory.localExchangeSource demo_ctx.next_op_id demo_ctx.next_pseudo_id
        1 (4096 * max 1 (source_dop demo_pred4)) demo_ctx.exchangers.length]) :=
  ⟨by decide, by decide,
    passthrough_unequal_dop_inserts_exchange 4096 demo_ctx demo_pred4 1
      (by decide) (by decide)⟩

/-- C6: broadcast interpolation with one receiver is exactly the passthrough
routine on the same inputs — same returned sequence, same sealed pipelines,
no broadcast object; with at least two receivers it creates one broadcast
exchanger with memory limit chunk_size * num_receivers * num_receivers,
seals the predecessor sequence with the sink appended as a pipeline, and
returns the single exchange source with dop num_receivers. -/
theorem broadcast_one_receiver_is_passthrough (chunk_size : Nat)
    (ctx : PipelineBuilderContext) (pred : OpFactories) (num_receivers : Nat)
    (h2 : 2 ≤ num_receivers) :
    maybe_interpolate_local_broadcast_exchange chunk_size ctx pred 1 =
      maybe_interpolate_local_passthrough_exchange chunk_size ctx pred 1 ∧
    (maybe_interpolate_local_broadcast_exchange chunk_size ctx pred
        num_receivers).2.exchangers =
      ctx.exchangers ++
        [LocalExchanger.broadcastEx
          (chunk_size * num_receivers * num_receivers)] ∧
    (maybe_interpolate_local_broadcast_exchange chunk_size ctx pred
        num_receivers).2.pipelines =
      ctx.pipelines ++
        [pred ++ [OpFactory.localExchangeSink (ctx.next_op_id + 1)
          ctx.next_pseudo_id ctx.exchangers.length]] ∧
    (maybe_interpolate_local_broadcast_exchange chunk_size ctx pred
        num_receivers).1 =
      [OpFactory.localExchangeSource ctx.next_op_id ctx.next_pseudo_id
        num_receivers (chunk_size * num_receivers * num_receivers)
        ctx.exchangers.length] := by
  have hne : ¬((num_receivers == 1) = true) := by
    simp only [beq_iff_eq]
    omega
  refine ⟨?_, ?_, ?_, ?_⟩
  · unfold maybe_interpolate_local_broadcast_exchange
    rw [if_pos (by simp)]
  all_goals
    unfold maybe_interpolate_local_broadcast_exchange
  all_goals
    rw [if_neg hne]
  all_goals rfl

/-- Witness for C6 at two receivers on a dop-2 predecessor. -/
theorem broadcast_one_receiver_is_passthrough_witness :
    2 ≤ 2 ∧
    (maybe_interpolate_local_broadcast_exchange 4096 demo_ctx demo_pred 1 =
      maybe_interpolate_local_passthrough_exchange 4096 demo_ctx demo_pred 1 ∧
    (maybe_interpolate_local_broadcast_exchange 4096 demo_ctx demo_pred
        2).2.exchangers =
      demo_ctx.exchangers ++ [LocalExchanger.broadcastEx (4096 * 2 * 2)] ∧
    (maybe_interpolate_local_broadcast_exchange 4096 demo_ctx demo_pred
        2).2.pipelines =
      demo_ctx.pipelines ++
        [demo_pred ++ [OpFactory.localExchangeSink (demo_ctx.next_op_id + 1)
          demo_ctx.next_pseudo_id demo_ctx.exchangers.length]] ∧
    (maybe_interpolate_local_broadcast_exchange 4096 demo_ctx demo_pred 2).1 =
      [OpFactory.localExchangeSource demo_ctx.next_op_id demo_ctx.next_pseudo_id
        2 (4096 * 2 * 2) demo_ctx.exchangers.length]) :=
  ⟨by decide,
    broadcast_one_receiver_is_passthrough 4096 demo_ctx demo_pred 2 (by decide)⟩

/-- C7: shuffle interpolation on a builder context whose fragment dop is at
most 1 returns the input sequence unchanged, creating nothing; with fragment
dop at least 2 it creates one partition exchanger with memory limit
dop * chunk_size, carrying the partition type, the partition expressions and
the predecessor source dop, seals the predecessor sequence with the shuffle
sink appended as a pipeline, and returns the single shuffle source with the
fragment dop. -/
theorem shuffle_interpolation_spec (chunk_size : Nat)
    (ctx low_ctx : PipelineBuilderContext) (pred : OpFactories)
    (num_partition_exprs part_type : Nat)
    (hs : starts_with_source pred = true)
    (hd1 : low_ctx.dop ≤ 1) (hd2 : 2 ≤ ctx.dop) :
    maybe_interpolate_local_shuffle_exchange chunk_size low_ctx pred
        num_partition_exprs part_type = (pred, low_ctx) ∧
    (maybe_interpolate_local_shuffle_exchange chunk_size ctx pred
        num_partition_exprs part_type).2.exchangers =
      ctx.exchangers ++
        [LocalExchanger.partitionEx (ctx.dop * chunk_size) part_type
          num_partition_exprs (source_dop pred)] ∧
    (maybe_interpolate_local_shuffle_exchange chunk_size ctx pred
        num_partition_exprs part_type).2.pipelines =
      ctx.pipelines ++
        [pred ++ [OpFactory.localExchangeSink (ctx.next_op_id + 1)
          ctx.next_pseudo_id ctx.exchangers.length]] ∧
    (maybe_interpolate_local_shuffle_exchange chunk_size ctx pred
        num_partition_exprs part_type).1 =
      [OpFactory.localExchangeSource ctx.next_op_id ctx.next_pseudo_id ctx.dop
        (ctx.dop * chunk_size) ctx.exchangers.length] := by
  refine ⟨?_, ?_, ?_, ?_⟩
  · simp only [maybe_interpolate_local_shuffle_exchange]
    rw [if_pos hd1]
  all_goals
    simp only [maybe_interpolate_local_shuffle_exchange]
  all_goals
    rw [if_neg (by omega : ¬ ctx.dop ≤ 1)]
  all_goals rfl

/-- Witness for C7: the demo context has dop 2; lowering it to dop 1 makes
shuffle interpolation the identity. -/
theorem shuffle_interpolation_spec_witness :
    starts_with_source demo_pred = true ∧
    ({ demo_ctx with dop := 1 } : PipelineBuilderContext).dop ≤ 1 ∧
    2 ≤ demo_ctx.dop ∧
    (maybe_interpolate_local_shuffle_exchange 4096 { demo_ctx with dop := 1 }
        demo_pred 2 5 = (demo_pred, { demo_ctx with dop := 1 }) ∧
    (maybe_interpolate_local_shuffle_exchange 4096 demo_ctx demo_pred
        2 5).2.exchangers =
      demo_ctx.exchangers ++
        [LocalExchanger.partitionEx (demo_ctx.dop * 4096) 5 2
          (source_dop demo_pred)] ∧
    (maybe_interpolate_local_shuffle_exchange 4096 demo_ctx demo_pred
        2 5).2.pipelines =
      demo_ctx.pipelines ++
        [demo_pred ++ [OpFactory.localExchangeSink (demo_ctx.next_op_id + 1)
          demo_ctx.next_pseudo_id demo_ctx.exchangers.length]] ∧
    (maybe_interpolate_local_shuffle_exchange 4096 demo_ctx demo_pred 2 5).1 =
      [OpFactory.localExchangeSource demo_ctx.next_op_id demo_ctx.next_pseudo_id
        demo_ctx.dop (demo_ctx.dop * 4096) demo_ctx.exchangers.length]) :=
  ⟨by decide, by decide, by decide,
    shuffle_interpolation_spec 4096 demo_ctx { demo_ctx with dop := 1 }
      demo_pred 2 5 (by decide) (by decide) (by decide)⟩

/-- The gather loop seals exactly the predecessor pipelines extended with
sinks carrying consecutive operator ids, all referencing the one shared
exchanger, and touches nothing else in the builder context. -/
theorem append_sinks_and_seal_spec (preds : List OpFactories) :
    ∀ (pseudo : Int) (exid : Nat) (c : PipelineBuilderContext),
    (append_sinks_and_seal pseudo exid c preds).pipelines =
        c.pipelines ++ sealed_with_sinks pseudo exid c.next_op_id preds ∧
    (append_sinks_and_seal pseudo exid c preds).exchangers = c.exchangers ∧
    (append_sinks_and_seal pseudo exid c preds).dop = c.dop ∧
    (append_sinks_and_seal pseudo exid c preds).next_pseudo_id =
        c.next_pseudo_id ∧
    (append_sinks_and_seal pseudo exid c preds).next_op_id =
        c.next_op_id + preds.length := by
  induction preds with
  | nil =>
      intro pseudo exid c
      simp [append_sinks_and_seal, sealed_with_sinks]
  | cons p rest ih =>
      intro pseudo exid c
      simp only [append_sinks_and_seal, PipelineBuilderContext.next_operator_id,
        PipelineBuilderContext.add_pipeline]
      obtain ⟨ih1, ih2, ih3, ih4, ih5⟩ := ih pseudo exid
        { c with
          next_op_id := c.next_op_id + 1,
          pipelines := c.pipelines ++
            [p ++ [OpFactory.localExchangeSink c.next_op_id pseudo exid]] }
      refine ⟨?_, ih2, ih3, ih4, ?_⟩
      · rw [ih1]
        simp [sealed_with_sinks, List.append_assoc]
      · rw [ih5]
        simp only [List.length_cons]
        omega

/-- The number of sealed pipelines the gather loop adds equals the number of
predecessors. -/
theorem sealed_with_sinks_length (pseudo : Int) (exid : Nat) :
    ∀ (l : List OpFactories) (nid : Nat),
    (sealed_with_sinks pseudo exid nid l).length = l.length := by
  intro l
  induction l with
  | nil => intro nid; rfl
  | cons p rest ih =>
      intro nid
      simp only [sealed_with_sinks, List.length_cons, ih (nid + 1)]

/-- The budget accumulation of the gather routine is the sum over the
predecessors of source dop times chunk size. -/
theorem gather_budget_sum (chunk_size : Nat) (l : List OpFactories) :
    ∀ init : Nat,
    l.foldl (fun acc pred => acc + source_dop pred * chunk_size) init =
      init + (l.map (fun pred => source_dop pred * chunk_size)).sum := by
  induction l with
  | nil => intro init; simp
  | cons p rest ih =>
      intro init
      simp only [List.foldl_cons, List.map_cons, List.sum_cons,
        ih (init + source_dop p * chunk_size)]
      omega

/-- C8: gather on a one-element predecessor list returns that entry
unmodified, creating no exchange and sealing nothing; on k ≥ 2 predecessors
it creates exactly one shared passthrough exchanger whose memory limit is the
sum over all predecessors of source dop times chunk size, appends to each
predecessor one sink referencing that same shared exchanger and seals each of
the k sequences as its own pipeline, and returns a single-element sequence
holding the shared exchange source at the fragment dop. -/
theorem maybe_gather_spec (chunk_size : Nat) (ctx : PipelineBuilderContext)
    (preds : List OpFactories) (p : OpFactories) (h2 : 2 ≤ preds.length) :
    maybe_gather_pipelines_to_one chunk_size ctx [p] = (p, ctx) ∧
    (maybe_gather_pipelines_to_one chunk_size ctx preds).2.exchangers =
      ctx.exchangers ++
        [LocalExchanger.passthroughEx
          ((preds.map (fun pred => source_dop pred * chunk_size)).sum)] ∧
    (maybe_gather_pipelines_to_one chunk_size ctx preds).2.pipelines =
      ctx.pipelines ++
        sealed_with_sinks ctx.next_pseudo_id ctx.exchangers.length
          (ctx.next_op_id + 1) preds ∧
    (maybe_gather_pipelines_to_one chunk_size ctx preds).2.pipelines.length =
      ctx.pipelines.length + preds.length ∧
    (maybe_gather_pipelines_to_one chunk_size ctx preds).1 =
      [OpFactory.localExchangeSource ctx.next_op_id ctx.next_pseudo_id ctx.dop
        ((preds.map (fun pred => source_dop pred * chunk_size)).sum)
        ctx.exchangers.length] := by
  obtain ⟨a, rest1, rfl⟩ : ∃ a rest1, preds = a :: rest1 := by
    cases preds with
    | nil => simp at h2
    | cons a t => exact ⟨a, t, rfl⟩
  obtain ⟨b, rest, rfl⟩ : ∃ b rest, rest1 = b :: rest := by
    cases rest1 with
    | nil => simp at h2
    | cons b t => exact ⟨b, t, rfl⟩
  refine ⟨rfl, ?_⟩
  simp only [maybe_gather_pipelines_to_one,
    PipelineBuilderContext.next_pseudo_plan_node_id,
    PipelineBuilderContext.next_operator_id,
    PipelineBuilderContext.new_exchanger]
  obtain ⟨hp, hex, hdop, hps, hid⟩ := append_sinks_and_seal_spec
    (a :: b :: rest) ctx.next_pseudo_id ctx.exchangers.length
    { ctx with
      next_pseudo_id := ctx.next_pseudo_id - 1,
      next_op_id := ctx.next_op_id + 1,
      exchangers := ctx.exchangers ++
        [LocalExchanger.passthroughEx
          ((a :: b :: rest).foldl
            (fun acc pred => acc + source_dop pred * chunk_size) 0)] }
  rw [gather_budget_sum] at hp hex hid ⊢
  refine ⟨?_, ?_, ?_, ?_⟩
  · rw [hex]
    try simp
  · rw [hp]
    try simp
  · rw [hp]
    try simp [sealed_with_sinks_length]
  · try simp

/-- Witness for C8 on two concrete predecessors of dop 2 and dop 3 with
chunk size 10: the shared budget is 2 * 10 + 3 * 10. -/
theorem maybe_gather_spec_witness :
    2 ≤ demo_preds.length ∧
    (maybe_gather_pipelines_to_one 10 demo_ctx [[OpFactory.plain 1 1 true 2]] =
        ([OpFactory.plain 1 1 true 2], demo_ctx) ∧
      (maybe_gather_pipelines_to_one 10 demo_ctx demo_preds).2.exchangers =
        demo_ctx.exchangers ++
          [LocalExchanger.passthroughEx
            ((demo_preds.map (fun pred => source_dop pred * 10)).sum)] ∧
      (maybe_gather_pipelines_to_one 10 demo_ctx demo_preds).2.pipelines =
        demo_ctx.pipelines ++
          sealed_with_sinks demo_ctx.next_pseudo_id demo_ctx.exchangers.length
            (demo_ctx.next_op_id + 1) demo_preds ∧
      (maybe_gather_pipelines_to_one 10 demo_ctx demo_preds).2.pipelines.length =
        demo_ctx.pipelines.length + demo_preds.length ∧
      (maybe_gather_pipelines_to_one 10 demo_ctx demo_preds).1 =
        [OpFactory.localExchangeSource demo_ctx.next_op_id
          demo_ctx.next_pseudo_id demo_ctx.dop
          ((demo_preds.map (fun pred => source_dop pred * 10)).sum)
          demo_ctx.exchangers.length]) :=
  ⟨by decide,
    maybe_gather_spec 10 demo_ctx demo_preds [OpFactory.plain 1 1 true 2]
      (by decide)⟩

end StarRocks
